import Mathlib

/-!
Verification development for the public Docker image scanner.

The development shallowly embeds `th_pub_docker_scanner.py`:

* `fetch_all_pages` models the `while url:` pagination loop shared by
  `get_all_repositories` and `get_all_tags` (one `Page` per HTTP response).
* `get_image_digest` models the two-step auth-then-HEAD digest resolution.
* `Table` / `init_db` model the sqlite schema level of `initialize_db`
  (CREATE TABLE IF NOT EXISTS followed by PRAGMA table_info and
  ALTER TABLE ADD COLUMN for each missing column).
* `ImageRecord` / `db_get` / `update_db` model the images table as seen
  through the current five-column schema (SELECT / INSERT OR REPLACE).
* `decide` models the inline change decision of `scan_images`
  (lines 193-207: fetch stored digest, scan iff it differs).
* `run_trufflehog` models the scan executor: mkdtemp, container naming,
  the try/except/finally structure, and the line counting of the JSON
  output.  Subprocess outcomes are supplied by a `ScanEnv` oracle; only
  `docker pull` and `docker create` are run with check=True and hence are
  the only steps that can raise `CalledProcessError`.
* `scan_images` models one full sweep: enumerate, detect, notify, scan,
  persist, with the Slack messages and scans recorded as an `Event` trace.
-/

namespace Scanner

/-! ### Registry client: pagination -/

/-- One HTTP response of the paginated repository/tag listing: its status
code, the extracted `results[].name` items, and whether `data.get('next')`
is a further URL. -/
structure Page where
  status : Nat
  results : List String
  has_next : Bool
deriving Repr, DecidableEq

/-- Observable outcome of the pagination loop: collected items, how many
requests were issued, and whether a non-success status was logged
(the `print(f"Error fetching ...")` followed by `break`). -/
structure FetchOutcome where
  items : List String
  requests : Nat
  errorLogged : Bool
deriving Repr, DecidableEq

/-- The `while url:` loop of `get_all_repositories` / `get_all_tags`: issue
a request per page; on a non-200 status log the error and break, keeping
what was collected so far; otherwise extend with the page items and follow
the `next` link until it is absent. -/
def fetch_all_pages : List Page → FetchOutcome
  | [] => ⟨[], 0, false⟩
  | p :: rest =>
    if p.status ≠ 200 then ⟨[], 1, true⟩
    else if p.has_next then
      let o := fetch_all_pages rest
      ⟨p.results ++ o.items, o.requests + 1, o.errorLogged⟩
    else ⟨p.results, 1, false⟩

/-- Pagination model of `get_all_repositories`. -/
def get_all_repositories (pages : List Page) : FetchOutcome :=
  fetch_all_pages pages

/-- Pagination model of `get_all_tags` for one repository. -/
def get_all_tags (pages : List Page) : FetchOutcome :=
  fetch_all_pages pages

/-- A page list is a well-formed paginated source when it is non-empty,
every page but the last carries a `next` link and the last does not. -/
def pagesWellFormed : List Page → Bool
  | [] => false
  | [p] => !p.has_next
  | p :: rest => p.has_next && pagesWellFormed rest

/-! ### Registry client: digest resolution -/

/-- Response of the auth-token exchange: status code and the optional
`token` field of the JSON body. -/
structure TokenResponse where
  status : Nat
  token : Option String
deriving Repr, DecidableEq

/-- Response of the HEAD manifest request: status code and the optional
`Docker-Content-Digest` header. -/
structure ManifestResponse where
  status : Nat
  digestHeader : Option String
deriving Repr, DecidableEq

/-- Network oracle for one `(namespace, repository, tag)` digest
resolution. -/
structure DigestEnv where
  tokenResp : TokenResponse
  manifestResp : ManifestResponse
deriving Repr, DecidableEq

/-- Model of `get_image_digest`: the token request must return 200 with a
truthy token (Python `if not token` rejects both a missing and an empty
token), then the manifest HEAD request must return 200; the result is the
digest header (possibly absent).  Every failure returns `none`. -/
def get_image_digest (env : DigestEnv) : Option String :=
  if env.tokenResp.status ≠ 200 then none
  else
    match env.tokenResp.token with
    | none => none
    | some token =>
      if token = "" then none
      else if env.manifestResp.status ≠ 200 then none
      else env.manifestResp.digestHeader

/-! ### State store: schema level (`initialize_db`) -/

/-- A sqlite table as `PRAGMA table_info` sees it: ordered column names and
rows of cells aligned with the columns (`none` is SQL NULL). -/
structure Table where
  columns : List String
  rows : List (List (Option String))
deriving Repr, DecidableEq

/-- The five columns of the current `images` schema, in creation order. -/
def baseColumns : List String :=
  ["image_name", "tag", "digest", "last_updated_image_timestamp",
   "vulnerabilities_count"]

/-- ALTER TABLE ADD COLUMN: fails on a duplicate column name, otherwise
appends the column with NULL in every existing row. -/
def addColumn (t : Table) (c : String) : Except String Table :=
  if c ∈ t.columns then Except.error ("duplicate column name: " ++ c)
  else Except.ok ⟨t.columns ++ [c], t.rows.map (fun r => r ++ [none])⟩

/-- Model of `initialize_db`: CREATE TABLE IF NOT EXISTS (so an absent
table gets the full five-column schema and an existing table is kept
as-is), then check `PRAGMA table_info` and ALTER TABLE ADD COLUMN for
`digest` and `vulnerabilities_count` when missing. -/
def init_db (db : Option Table) : Except String Table :=
  let t : Table :=
    match db with
    | none => ⟨baseColumns, []⟩
    | some t => t
  match (if "digest" ∈ t.columns then Except.ok t else addColumn t "digest") with
  | Except.error e => Except.error e
  | Except.ok t1 =>
    if "vulnerabilities_count" ∈ t1.columns then Except.ok t1
    else addColumn t1 "vulnerabilities_count"

/-- SELECT digest FROM images WHERE image_name=? AND tag=? at schema
level: fails when a referenced column is absent, otherwise returns the
digest cell of the first matching row (if any). -/
def table_get_digest (t : Table) (name tag : String) :
    Except String (Option (Option String)) :=
  match t.columns.indexOf? "image_name", t.columns.indexOf? "tag",
      t.columns.indexOf? "digest" with
  | some i, some j, some k =>
    Except.ok
      ((t.rows.find? (fun r =>
          r.getD i none == some name && r.getD j none == some tag)).map
        (fun r => r.getD k none))
  | _, _, _ => Except.error "no such column"

/-- INSERT OR REPLACE INTO images (all five columns) at schema level:
fails when a named column is absent, otherwise replaces the row keyed by
`(image_name, tag)`; columns not named get NULL. -/
def table_upsert (t : Table) (name tag : String)
    (digest ts cnt : Option String) : Except String Table :=
  if ("image_name" ∈ t.columns ∧ "tag" ∈ t.columns ∧ "digest" ∈ t.columns ∧
      "last_updated_image_timestamp" ∈ t.columns ∧
      "vulnerabilities_count" ∈ t.columns) then
    let row := t.columns.map (fun c =>
      if c = "image_name" then some name
      else if c = "tag" then some tag
      else if c = "digest" then digest
      else if c = "last_updated_image_timestamp" then ts
      else if c = "vulnerabilities_count" then cnt
      else none)
    match t.columns.indexOf? "image_name", t.columns.indexOf? "tag" with
    | some i, some j =>
      Except.ok ⟨t.columns,
        row :: t.rows.filter (fun r =>
          !(r.getD i none == some name && r.getD j none == some tag))⟩
    | _, _ => Except.error "no such column"
  else Except.error "no such column"

/-! ### State store: typed view under the current schema -/

/-- One row of the `images` table under the current five-column schema.
Every non-key column is nullable in sqlite, hence the `Option`s. -/
structure ImageRecord where
  image_name : String
  tag : String
  digest : Option String
  last_updated_image_timestamp : Option String
  vulnerabilities_count : Option Nat
deriving Repr, DecidableEq

/-- The `images` table as a list of rows, keyed by `(image_name, tag)`. -/
abbrev Images := List ImageRecord

/-- SELECT ... WHERE image_name=? AND tag=? with `fetchone`: the first row
matching the key. -/
def db_get (db : Images) (image_name tag : String) : Option ImageRecord :=
  db.find? (fun r => r.image_name == image_name && r.tag == tag)

/-- Model of `update_db`: INSERT OR REPLACE keyed by `(image_name, tag)`,
writing the digest, the current timestamp and the vulnerability count. -/
def update_db (db : Images) (image_name tag : String) (digest : String)
    (vulnerabilities_count : Nat) (now : String) : Images :=
  ⟨image_name, tag, some digest, some now, some vulnerabilities_count⟩ ::
    db.filter (fun r => !(r.image_name == image_name && r.tag == tag))

/-! ### Change detector -/

/-- The change decision. -/
inductive Decision where
  | Scan
  | Skip
deriving Repr, DecidableEq

/-- The inline change decision of `scan_images` (lines 199-207 of the
source): `stored_digest` is the digest cell of the fetched row when one
exists and `None` otherwise; scan iff `digest != stored_digest`. -/
def decide (stored : Option ImageRecord) (resolved : String) : Decision :=
  let stored_digest : Option String :=
    match stored with
    | some r => r.digest
    | none => none
  if some resolved ≠ stored_digest then Decision.Scan else Decision.Skip

/-! ### Scan executor (`run_trufflehog`) -/

/-- Python `str.strip()` on a character list: drop whitespace from both
ends. -/
def stripChars (l : List Char) : List Char :=
  ((l.dropWhile Char.isWhitespace).reverse.dropWhile Char.isWhitespace).reverse

/-- Python `str.split('\n')` on a character list. -/
def splitOnNl : List Char → List (List Char)
  | [] => [[]]
  | c :: cs =>
    let rest := splitOnNl cs
    if c = '\n' then [] :: rest
    else
      match rest with
      | [] => [[c]]
      | l :: ls => (c :: l) :: ls

/-- The vulnerability counting loop of `run_trufflehog`: strip the JSON
output, split on newlines, and count the non-blank lines. -/
def countFindings (s : String) : Nat :=
  ((splitOnNl (stripChars s.data)).filter
    (fun line => !(stripChars line).isEmpty)).length

/-- Replace every occurrence of one character (Python `str.replace` with a
single-character pattern). -/
def replChar (a b : Char) (l : List Char) : List Char :=
  l.map (fun c => if c = a then b else c)

/-- The container naming of `run_trufflehog`:
`f"temp_container_{image_tag.replace('/', '_').replace(':', '_')}"`.
Note it is a pure function of the image reference with no per-invocation
component. -/
def container_name (image_tag : String) : String :=
  String.mk ("temp_container_".data ++
    replChar ':' '_' (replChar '/' '_' image_tag.data))

/-- Oracle for one `run_trufflehog` invocation: the directory name minted
by `tempfile.mkdtemp()`, whether `docker pull` / `docker create` exit
non-zero (they run with check=True, so a failure raises
`CalledProcessError`), whether `docker export` exits non-zero (it runs via
`Popen` without checking, so a failure raises nothing and only influences
what was extracted — which the two scanner-output oracles already
capture), and the stdout of the two trufflehog runs. -/
structure ScanEnv where
  freshDir : String
  pullFails : Bool
  createFails : Bool
  exportFails : Bool
  scannerStdout : String
  scannerJsonStdout : String
deriving Repr, DecidableEq

/-- Transient host resources of one invocation: whether the scratch
directory and the transient container currently exist. -/
structure ResState where
  tempDirPresent : Bool
  containerPresent : Bool
deriving Repr, DecidableEq

/-- The `docker rm container_name` cleanup step (errors are discarded via
DEVNULL; removing an absent container leaves it absent). -/
def docker_rm (st : ResState) : ResState :=
  { st with containerPresent := false }

/-- The `shutil.rmtree(temp_dir)` cleanup step. -/
def rmtree (st : ResState) : ResState :=
  { st with tempDirPresent := false }

/-- Failure text of the `except subprocess.CalledProcessError` handler:
`f"Error during scanning {image_tag}: {e}"`. -/
def errText (image_tag : String) : String :=
  "Error during scanning " ++ image_tag ++ ": CalledProcessError"

/-- The `try` block of `run_trufflehog`, entered after `mkdtemp` created
the scratch directory: pull (raises on failure), create (raises on
failure, container then exists), export (never raises), and the two
scanner runs (never raise).  Returns the raised-or-returned value together
with the resource state at exit of the block. -/
def scan_body (env : ScanEnv) (image_tag : String) :
    Except String (String × Nat) × ResState :=
  let st : ResState := ⟨true, false⟩
  if env.pullFails then (Except.error (errText image_tag), st)
  else if env.createFails then (Except.error (errText image_tag), st)
  else
    let st : ResState := ⟨true, true⟩
    (Except.ok (env.scannerStdout, countFindings env.scannerJsonStdout), st)

/-- Observable outcome of one `run_trufflehog` invocation: the returned
pair, the names of the acquired scratch directory and container, and the
final resource state. -/
structure RunOutcome where
  scan_results : String
  vulnerabilities_count : Nat
  temp_dir : String
  container : String
  tempDirPresent : Bool
  containerPresent : Bool
deriving Repr, DecidableEq

/-- Model of `run_trufflehog`: mkdtemp, derive the container name, run the
`try` block, then the `finally` block (docker rm, rmtree) on every path;
the `except CalledProcessError` handler turns a raised pull/create failure
into the failure text with the count left at its initial 0. -/
def run_trufflehog (env : ScanEnv) (image_tag : String) : RunOutcome :=
  let temp_dir := env.freshDir
  let cname := container_name image_tag
  let body := scan_body env image_tag
  let st := rmtree (docker_rm body.2)
  match body.1 with
  | Except.error msg =>
    ⟨msg, 0, temp_dir, cname, st.tempDirPresent, st.containerPresent⟩
  | Except.ok (out, cnt) =>
    ⟨out, cnt, temp_dir, cname, st.tempDirPresent, st.containerPresent⟩

/-! ### Run coordinator (`scan_images`) -/

/-- Observable events of one sweep, in emission order: the summary Slack
message, one `run_trufflehog` execution, the per-image outcome Slack
message, and the terminal no-op log of an empty plan. -/
inductive Event where
  | summary (tasks : Nat)
  | scanRun (image_tag : String)
  | outcome (repo tag : String) (found : Bool)
  | noopLog
deriving Repr, DecidableEq

/-- Whether an event is the summary notification. -/
def Event.isSummary : Event → Bool
  | Event.summary _ => true
  | _ => false

/-- The unit of work accumulated by the detection loop:
`images_to_scan.append((repo, tag, digest))`. -/
structure ScanTask where
  image_name : String
  tag : String
  resolved_digest : String
deriving Repr, DecidableEq

/-- Environment oracle for one sweep: the paginated repository listing,
the paginated tag listing per repository, the digest-resolution responses
per (repository, tag), the scan oracle per image reference, and the
timestamp written by `update_db`. -/
structure SweepEnv where
  repoPages : List Page
  tagPages : String → List Page
  digestEnv : String → String → DigestEnv
  scanEnv : String → ScanEnv
  now : String

/-- Digest resolution of one pair inside the sweep. -/
def resolve_digest (env : SweepEnv) (repo tag : String) : Option String :=
  get_image_digest (env.digestEnv repo tag)

/-- The repositories the sweep iterates over. -/
def repos_of (env : SweepEnv) : List String :=
  (get_all_repositories env.repoPages).items

/-- The tags the sweep iterates over for one repository. -/
def tags_of (env : SweepEnv) (repo : String) : List String :=
  (get_all_tags (env.tagPages repo)).items

/-- One iteration of the detection loop: resolve the digest (skip the pair
when resolution failed), fetch the stored digest, and append a `ScanTask`
exactly when the decision is `Scan`. -/
def detect_tag (env : SweepEnv) (db : Images) (repo tag : String) :
    Option ScanTask :=
  match resolve_digest env repo tag with
  | none => none
  | some digest =>
    match decide (db_get db repo tag) digest with
    | Decision.Scan => some ⟨repo, tag, digest⟩
    | Decision.Skip => none

/-- The detection loop over one repository's tag list. -/
def tagsPlan (env : SweepEnv) (db : Images) (repo : String)
    (tagList : List String) : List ScanTask :=
  tagList.filterMap (detect_tag env db repo)

/-- The full `images_to_scan` plan accumulated by the detection phase (the
store is only read during this phase; it is written later, while
scanning). -/
def detectPlan (env : SweepEnv) (db : Images) : List ScanTask :=
  (repos_of env).flatMap (fun repo => tagsPlan env db repo (tags_of env repo))

/-- The image reference `f"{namespace}/{repo}:{tag}"`. -/
def image_tag_of (ns repo tag : String) : String :=
  ns ++ "/" ++ repo ++ ":" ++ tag

/-- Execute one `ScanTask`: run the scan, upsert the resolved digest and
returned count, and emit the per-image outcome message (`found` is the
`vulnerabilities_count > 0` branch choice). -/
def exec_task (ns : String) (env : SweepEnv) (st : Images × List Event)
    (task : ScanTask) : Images × List Event :=
  let it := image_tag_of ns task.image_name task.tag
  let r := run_trufflehog (env.scanEnv it) it
  let db := update_db st.1 task.image_name task.tag task.resolved_digest
    r.vulnerabilities_count env.now
  (db, st.2 ++ [Event.scanRun it,
    Event.outcome task.image_name task.tag (Nat.blt 0 r.vulnerabilities_count)])

/-- The scanning loop over the accumulated plan. -/
def scanning_phase (ns : String) (env : SweepEnv) (db : Images)
    (plan : List ScanTask) : Images × List Event :=
  plan.foldl (exec_task ns env) (db, [])

/-- Model of `scan_images`: build the plan; when it is empty, log the
no-op message and stop; otherwise send the summary message first and then
scan sequentially. -/
def scan_images (ns : String) (env : SweepEnv) (db : Images) :
    Images × List Event :=
  let plan := detectPlan env db
  match plan with
  | [] => (db, [Event.noopLog])
  | _ :: _ =>
    let r := scanning_phase ns env db plan
    (r.1, Event.summary plan.length :: r.2)

/-! ### Helper lemmas about the scan executor -/

/-- The returned scratch directory name is the one minted by mkdtemp. -/
lemma run_trufflehog_temp_dir (env : ScanEnv) (image_tag : String) :
    (run_trufflehog env image_tag).temp_dir = env.freshDir := by
  unfold run_trufflehog scan_body
  by_cases hp : env.pullFails
  · simp [hp]
  · by_cases hc : env.createFails
    · simp [hp, hc]
    · simp [hp, hc]

/-- The container name used is the pure function of the image reference. -/
lemma run_trufflehog_container (env : ScanEnv) (image_tag : String) :
    (run_trufflehog env image_tag).container = container_name image_tag := by
  unfold run_trufflehog scan_body
  by_cases hp : env.pullFails
  · simp [hp]
  · by_cases hc : env.createFails
    · simp [hp, hc]
    · simp [hp, hc]

/-- On the caught pull/create failure path the count is left at 0. -/
lemma run_trufflehog_failed_count (env : ScanEnv) (image_tag : String)
    (h : env.pullFails = true ∨ env.createFails = true) :
    (run_trufflehog env image_tag).vulnerabilities_count = 0 := by
  unfold run_trufflehog scan_body
  rcases h with h | h
  · simp [h]
  · by_cases hp : env.pullFails <;> simp [hp, h]

/-- C1: change detection is a pure function of the stored record's digest
and the freshly resolved digest.  `decide R d = Scan` iff `R` is absent or
its digest cell differs from `d` (in particular a NULL stored digest
differs from every resolved digest), `decide R d = Skip` otherwise, and
the decision is unchanged under arbitrary modification of the timestamp
and vulnerability-count fields. -/
theorem C1_change_detection_pure :
    ∀ (stored : Option ImageRecord) (d : String),
      (decide stored d = Decision.Scan ↔
        stored = none ∨ ∃ r, stored = some r ∧ r.digest ≠ some d)
      ∧ (decide stored d = Decision.Skip ↔
        ∃ r, stored = some r ∧ r.digest = some d)
      ∧ ∀ (name tg : String) (dg ts ts' : Option String) (c c' : Option Nat),
          decide (some ⟨name, tg, dg, ts, c⟩) d =
            decide (some ⟨name, tg, dg, ts', c'⟩) d := by
  intro stored d
  refine ⟨?_, ?_, ?_⟩
  · cases stored with
    | none => simp [decide]
    | some r =>
      by_cases h : r.digest = some d
      · simp [decide, h]
      · simp [decide, h, eq_comm (a := some d)]
  · cases stored with
    | none => simp [decide]
    | some r =>
      by_cases h : r.digest = some d
      · simp [decide, h]
      · simp [decide, h, eq_comm (a := some d)]
  · intro name tg dg ts ts' c c'
    simp [decide]

/-- C2: on every invocation of the scan operation — whatever the injected
failures of pull, create, export or the scanner runs — the transient
container and the scratch directory are both absent when
`run_trufflehog` returns: the finally block removed them on every path,
including the exception paths. -/
theorem C2_cleanup_guarantee :
    ∀ (env : ScanEnv) (image_tag : String),
      (run_trufflehog env image_tag).tempDirPresent = false ∧
      (run_trufflehog env image_tag).containerPresent = false := by
  intro env image_tag
  unfold run_trufflehog scan_body docker_rm rmtree
  by_cases hp : env.pullFails <;> by_cases hc : env.createFails <;>
    simp [hp, hc]

/-- C3 counterexample: an injected failure of the filesystem-export step
(step 3 of the sequence) does not produce a zero-finding report with
failure text.  `docker export` runs through `Popen` without a status
check, so its failure raises nothing; the code then runs the scanner on
whatever was extracted and returns the scanner's output — here three
structured findings, so the count is 3 and the report is the scanner
stdout, not failure text. -/
theorem C3_counterexample :
    (⟨"scratch1", false, false, true, "verified findings text",
        "finding1\nfinding2\nfinding3"⟩ : ScanEnv).exportFails = true
    ∧ (run_trufflehog
        ⟨"scratch1", false, false, true, "verified findings text",
          "finding1\nfinding2\nfinding3"⟩ "ns/app:v1").vulnerabilities_count ≠ 0
    ∧ (run_trufflehog
        ⟨"scratch1", false, false, true, "verified findings text",
          "finding1\nfinding2\nfinding3"⟩ "ns/app:v1").scan_results ≠
        errText "ns/app:v1" := by decide

/-- C3 amended: failures of the image-pull or container-create steps
(the only steps run with check=True, hence the only ones that raise) are
captured: `run_trufflehog` returns normally with the failure text as the
report and a count of 0.  Failures of the export or scanner steps raise
nothing: the function still returns normally — no step failure ever
propagates to the sweep — but the report and count are then whatever the
scanner produced over the extracted content. -/
theorem C3_amended_failure_capture :
    ∀ (env : ScanEnv) (image_tag : String),
      ((env.pullFails = true ∨ env.createFails = true) →
        (run_trufflehog env image_tag).scan_results = errText image_tag ∧
        (run_trufflehog env image_tag).vulnerabilities_count = 0)
      ∧ (env.pullFails = false → env.createFails = false →
        (run_trufflehog env image_tag).scan_results = env.scannerStdout ∧
        (run_trufflehog env image_tag).vulnerabilities_count =
          countFindings env.scannerJsonStdout) := by
  intro env image_tag
  constructor
  · intro h
    unfold run_trufflehog scan_body
    rcases h with h | h
    · simp [h]
    · by_cases hp : env.pullFails <;> simp [hp, h]
  · intro hp hc
    unfold run_trufflehog scan_body
    simp [hp, hc]

/-- C3 amended claim, exercised concretely: a pull failure is captured as
failure text with count 0, and a clean run returns the scanner outputs. -/
theorem C3_amended_witness :
    ((run_trufflehog ⟨"scratch1", true, false, false, "", ""⟩
        "ns/app:v1").scan_results = errText "ns/app:v1" ∧
      (run_trufflehog ⟨"scratch1", true, false, false, "", ""⟩
        "ns/app:v1").vulnerabilities_count = 0)
    ∧ ((run_trufflehog ⟨"scratch2", false, false, false, "report text",
          "finding1\nfinding2"⟩ "ns/app:v1").scan_results = "report text" ∧
      (run_trufflehog ⟨"scratch2", false, false, false, "report text",
          "finding1\nfinding2"⟩ "ns/app:v1").vulnerabilities_count =
        countFindings "finding1\nfinding2") :=
  ⟨(C3_amended_failure_capture ⟨"scratch1", true, false, false, "", ""⟩
      "ns/app:v1").1 (Or.inl rfl),
   (C3_amended_failure_capture ⟨"scratch2", false, false, false,
      "report text", "finding1\nfinding2"⟩ "ns/app:v1").2 rfl rfl⟩

/-- C8 counterexample: the container name carries no per-invocation
component.  Two invocations (distinguished by their distinct mkdtemp
directories) on the same image reference acquire the same container name,
and the two distinct references `a/b:c` and `a_b:c` also collide after the
slash/colon replacement. -/
theorem C8_counterexample :
    (run_trufflehog ⟨"dir1", false, false, false, "", ""⟩
        "ns/app:v1").container =
      (run_trufflehog ⟨"dir2", false, false, false, "", ""⟩
        "ns/app:v1").container
    ∧ (run_trufflehog ⟨"dir1", false, false, false, "", ""⟩
        "ns/app:v1").temp_dir ≠
      (run_trufflehog ⟨"dir2", false, false, false, "", ""⟩
        "ns/app:v1").temp_dir
    ∧ container_name "a/b:c" = container_name "a_b:c"
    ∧ ("a/b:c" : String) ≠ "a_b:c" := by decide

/-- C8 amended: only the scratch directories are collision-free across
concurrent invocations — they are the distinct names minted by mkdtemp —
while the container name is a deterministic function of the image
reference alone (slashes and colons replaced by underscores, no unique
suffix), so invocations on the same reference share it. -/
theorem C8_amended_naming :
    ∀ (e1 e2 : ScanEnv) (it1 it2 : String),
      e1.freshDir ≠ e2.freshDir →
      (run_trufflehog e1 it1).temp_dir ≠ (run_trufflehog e2 it2).temp_dir
      ∧ ∀ (e : ScanEnv) (it : String),
          (run_trufflehog e it).container = container_name it := by
  intro e1 e2 it1 it2 h
  refine ⟨?_, fun e it => run_trufflehog_container e it⟩
  rw [run_trufflehog_temp_dir, run_trufflehog_temp_dir]
  exact h

/-- C8 amended claim, exercised concretely: two invocations with distinct
mkdtemp directories have distinct scratch directories, and the container
name is the deterministic function of the reference. -/
theorem C8_amended_witness :
    (run_trufflehog ⟨"dir1", false, false, false, "", ""⟩
        "ns/app:v1").temp_dir ≠
      (run_trufflehog ⟨"dir2", false, false, false, "", ""⟩
        "ns/app:v1").temp_dir
    ∧ ∀ (e : ScanEnv) (it : String),
        (run_trufflehog e it).container = container_name it :=
  C8_amended_naming ⟨"dir1", false, false, false, "", ""⟩
    ⟨"dir2", false, false, false, "", ""⟩ "ns/app:v1" "ns/app:v1"
    (by decide)

/-! ### Pagination lemmas -/

/-- A well-formed all-success source yields the concatenation of its pages
with one request per page and no error. -/
lemma fetch_all_pages_ok :
    ∀ (pages : List Page), pagesWellFormed pages = true →
      (∀ p ∈ pages, p.status = 200) →
      fetch_all_pages pages =
        ⟨(pages.map Page.results).flatten, pages.length, false⟩ := by
  intro pages
  induction pages with
  | nil => intro h; simp [pagesWellFormed] at h
  | cons p rest ih =>
    intro hwf hst
    have hp : p.status = 200 := hst p (List.mem_cons_self p rest)
    cases rest with
    | nil =>
      simp only [pagesWellFormed, Bool.not_eq_true'] at hwf
      simp [fetch_all_pages, hp, hwf]
    | cons q rest' =>
      simp only [pagesWellFormed, Bool.and_eq_true] at hwf
      have hrec := ih hwf.2 (fun x hx => hst x (List.mem_cons_of_mem p hx))
      show (if p.status ≠ 200 then (⟨[], 1, true⟩ : FetchOutcome)
        else if p.has_next then
          let o := fetch_all_pages (q :: rest')
          ⟨p.results ++ o.items, o.requests + 1, o.errorLogged⟩
        else ⟨p.results, 1, false⟩) = _
      rw [hrec]
      simp [hp, hwf.1]

/-- A non-success status breaks the loop: the items of the successful
prefix are kept, the failing page was still requested, and the error is
logged. -/
lemma fetch_all_pages_err :
    ∀ (good : List Page) (bad : Page) (rest : List Page),
      (∀ p ∈ good, p.status = 200 ∧ p.has_next = true) →
      bad.status ≠ 200 →
      fetch_all_pages (good ++ bad :: rest) =
        ⟨(good.map Page.results).flatten, good.length + 1, true⟩ := by
  intro good
  induction good with
  | nil => intro bad rest _ hbad; simp [fetch_all_pages, hbad]
  | cons p good' ih =>
    intro bad rest hgood hbad
    have hp := hgood p (List.mem_cons_self p good')
    have := ih bad rest (fun x hx => hgood x (List.mem_cons_of_mem p hx)) hbad
    simp [fetch_all_pages, hp.1, hp.2, this]

/-- C5: paginated enumeration follows the next link until exhausted — a
source of K pages yields exactly the concatenation of the K pages' items
in order while issuing exactly K requests — and on a non-success status
from any page it stops with the transport error logged while returning
the items collected so far instead of discarding them. -/
theorem C5_pagination :
    ∀ (pages : List Page),
      (pagesWellFormed pages = true → (∀ p ∈ pages, p.status = 200) →
        get_all_repositories pages =
          ⟨(pages.map Page.results).flatten, pages.length, false⟩)
      ∧ (∀ good bad rest, pages = good ++ bad :: rest →
          (∀ p ∈ good, p.status = 200 ∧ p.has_next = true) →
          bad.status ≠ 200 →
          get_all_repositories pages =
            ⟨(good.map Page.results).flatten, good.length + 1, true⟩) := by
  intro pages
  constructor
  · intro hwf hst
    exact fetch_all_pages_ok pages hwf hst
  · intro good bad rest heq hgood hbad
    rw [heq]
    exact fetch_all_pages_err good bad rest hgood hbad

/-- C5 exercised concretely: a well-formed two-page source yields both
pages' items with two requests and no error, and a source failing on its
second page keeps the first page's items, counts the failing request, and
logs the error. -/
theorem C5_pagination_witness :
    get_all_repositories [⟨200, ["a", "b"], true⟩, ⟨200, ["c"], false⟩] =
      ⟨["a", "b", "c"], 2, false⟩
    ∧ get_all_repositories
        [⟨200, ["a"], true⟩, ⟨500, ["x"], true⟩, ⟨200, ["z"], false⟩] =
      ⟨["a"], 2, true⟩ :=
  ⟨(C5_pagination [⟨200, ["a", "b"], true⟩, ⟨200, ["c"], false⟩]).1
      (by decide) (by decide),
   (C5_pagination
        [⟨200, ["a"], true⟩, ⟨500, ["x"], true⟩, ⟨200, ["z"], false⟩]).2
      [⟨200, ["a"], true⟩] ⟨500, ["x"], true⟩ [⟨200, ["z"], false⟩]
      rfl (by decide) (by decide)⟩

/-! ### Detection lemmas shared by several claims -/

/-- Inversion of one detection step: a produced task records the visited
pair, its digest resolved successfully to the task's digest, and the
change decision was `Scan`. -/
lemma detect_tag_some {env : SweepEnv} {db : Images} {repo tg : String}
    {task : ScanTask} (h : detect_tag env db repo tg = some task) :
    task.image_name = repo ∧ task.tag = tg ∧
    resolve_digest env repo tg = some task.resolved_digest ∧
    decide (db_get db repo tg) task.resolved_digest = Decision.Scan := by
  unfold detect_tag at h
  rcases hres : resolve_digest env repo tg with _ | d <;> simp only [hres] at h
  · exact absurd h (by simp)
  · rcases hdec : decide (db_get db repo tg) d <;> simp only [hdec] at h
    · obtain rfl := (Option.some_inj.1 h).symm
      exact ⟨rfl, rfl, rfl, hdec⟩
    · exact absurd h (by simp)

/-- Membership in the accumulated plan yields the facts of its detection
step. -/
lemma mem_detectPlan {env : SweepEnv} {db : Images} {task : ScanTask}
    (h : task ∈ detectPlan env db) :
    task.image_name ∈ repos_of env ∧
    task.tag ∈ tags_of env task.image_name ∧
    resolve_digest env task.image_name task.tag = some task.resolved_digest ∧
    decide (db_get db task.image_name task.tag) task.resolved_digest =
      Decision.Scan := by
  rcases List.mem_flatMap.1 h with ⟨repo, hrepo, hmem⟩
  rcases List.mem_filterMap.1 hmem with ⟨tg, htg, hdt⟩
  obtain ⟨h1, h2, h3, h4⟩ := detect_tag_some hdt
  subst h1; subst h2
  exact ⟨hrepo, htg, h3, h4⟩

/-- A detection step that produced a task on a visited pair puts the task
into the plan. -/
lemma detectPlan_mem_intro {env : SweepEnv} {db : Images} {repo tg : String}
    {task : ScanTask} (hrepo : repo ∈ repos_of env)
    (htg : tg ∈ tags_of env repo)
    (hdt : detect_tag env db repo tg = some task) :
    task ∈ detectPlan env db :=
  List.mem_flatMap.2 ⟨repo, hrepo, List.mem_filterMap.2 ⟨tg, htg, hdt⟩⟩

/-- A failing auth exchange or manifest request resolves to no digest. -/
lemma get_image_digest_none {e : DigestEnv}
    (h : e.tokenResp.status ≠ 200 ∨ e.tokenResp.token = none ∨
      e.tokenResp.token = some "" ∨ e.manifestResp.status ≠ 200) :
    get_image_digest e = none := by
  unfold get_image_digest
  by_cases hs : e.tokenResp.status = 200
  · rcases ht : e.tokenResp.token with _ | tok
    · simp
    · rcases h with h | h | h | h
      · exact absurd hs h
      · rw [ht] at h; exact absurd h (by simp)
      · rw [ht] at h
        rcases h with ⟨⟩
        simp
      · by_cases he : tok = "" <;> simp [hs, he, h]
  · simp [hs]

/-- C6: for every (namespace, repository, tag) pair, any failure of the
auth-token exchange (non-success status, missing or empty token) or of
the manifest metadata request (non-success status) makes digest
resolution yield no digest; the detection loop then excludes the pair
from the plan — no task for it ever appears — and simply continues with
the remaining tags of the repository. -/
theorem C6_digest_failure_skips :
    ∀ (env : SweepEnv) (db : Images) (repo tg : String) (ts : List String),
      ((env.digestEnv repo tg).tokenResp.status ≠ 200 ∨
       (env.digestEnv repo tg).tokenResp.token = none ∨
       (env.digestEnv repo tg).tokenResp.token = some "" ∨
       (env.digestEnv repo tg).manifestResp.status ≠ 200) →
      resolve_digest env repo tg = none
      ∧ tagsPlan env db repo (tg :: ts) = tagsPlan env db repo ts
      ∧ ∀ d, (⟨repo, tg, d⟩ : ScanTask) ∉ detectPlan env db := by
  intro env db repo tg ts h
  have hres : resolve_digest env repo tg = none := get_image_digest_none h
  refine ⟨hres, ?_, ?_⟩
  · simp [tagsPlan, List.filterMap_cons, detect_tag, hres]
  · intro d hmem
    obtain ⟨_, _, h3, _⟩ := mem_detectPlan hmem
    rw [hres] at h3
    exact absurd h3 (by simp)

/-- C6 exercised concretely: against a registry whose auth endpoint
returns 500 for every pair, the pair (app, v1) resolves to no digest, is
excluded from the plan, and detection continues over the remaining
tags. -/
theorem C6_digest_failure_witness :
    resolve_digest
      { repoPages := [⟨200, ["app"], false⟩]
        tagPages := fun _ => [⟨200, ["v1", "v2"], false⟩]
        digestEnv := fun _ _ => ⟨⟨500, none⟩, ⟨200, some "sha256x"⟩⟩
        scanEnv := fun _ => ⟨"scratch1", false, false, false, "", ""⟩
        now := "t0" } "app" "v1" = none
    ∧ tagsPlan
      { repoPages := [⟨200, ["app"], false⟩]
        tagPages := fun _ => [⟨200, ["v1", "v2"], false⟩]
        digestEnv := fun _ _ => ⟨⟨500, none⟩, ⟨200, some "sha256x"⟩⟩
        scanEnv := fun _ => ⟨"scratch1", false, false, false, "", ""⟩
        now := "t0" } [] "app" ["v1", "v2"] =
      tagsPlan
      { repoPages := [⟨200, ["app"], false⟩]
        tagPages := fun _ => [⟨200, ["v1", "v2"], false⟩]
        digestEnv := fun _ _ => ⟨⟨500, none⟩, ⟨200, some "sha256x"⟩⟩
        scanEnv := fun _ => ⟨"scratch1", false, false, false, "", ""⟩
        now := "t0" } [] "app" ["v2"]
    ∧ ∀ d, (⟨"app", "v1", d⟩ : ScanTask) ∉ detectPlan
      { repoPages := [⟨200, ["app"], false⟩]
        tagPages := fun _ => [⟨200, ["v1", "v2"], false⟩]
        digestEnv := fun _ _ => ⟨⟨500, none⟩, ⟨200, some "sha256x"⟩⟩
        scanEnv := fun _ => ⟨"scratch1", false, false, false, "", ""⟩
        now := "t0" } [] :=
  C6_digest_failure_skips _ [] "app" "v1" ["v2"] (Or.inl (by decide))

/-! ### Run coordinator: summary ordering -/

/-- The scanning loop only ever appends scan-run and outcome events, never
a summary. -/
lemma fold_events_no_summary (ns : String) (env : SweepEnv) :
    ∀ (plan : List ScanTask) (st : Images × List Event),
      st.2.all (fun e => !e.isSummary) = true →
      ((plan.foldl (exec_task ns env) st).2).all
        (fun e => !e.isSummary) = true := by
  intro plan
  induction plan with
  | nil => intro st h; exact h
  | cons task rest ih =>
    intro st h
    apply ih
    simp only [exec_task, List.all_append, Bool.and_eq_true]
    exact ⟨h, by simp [Event.isSummary]⟩

/-- C7: when the plan is non-empty the sweep emits exactly one summary
notification — it is the very first event, carrying the number of tasks,
and no later event is a summary, so no scan executes before it; when the
plan is empty the sweep emits only the terminal no-op log, so no scan
executes at all. -/
theorem C7_summary_before_scans :
    ∀ (ns : String) (env : SweepEnv) (db : Images),
      (detectPlan env db = [] → (scan_images ns env db).2 = [Event.noopLog])
      ∧ (detectPlan env db ≠ [] →
          ∃ tl, (scan_images ns env db).2 =
              Event.summary (detectPlan env db).length :: tl
            ∧ tl.all (fun e => !e.isSummary) = true) := by
  intro ns env db
  constructor
  · intro h
    simp [scan_images, h]
  · intro h
    rcases hp : detectPlan env db with _ | ⟨t, ts⟩
    · exact absurd hp h
    · refine ⟨(scanning_phase ns env db (t :: ts)).2, ?_, ?_⟩
      · simp [scan_images, hp]
      · exact fold_events_no_summary ns env (t :: ts) (db, []) (by simp)

/-- A concrete sweep environment: one repository `app` with one tag `v1`
resolving to a fresh digest, whose scan fails at `docker pull`. -/
def demoEnv : SweepEnv :=
  { repoPages := [⟨200, ["app"], false⟩]
    tagPages := fun _ => [⟨200, ["v1"], false⟩]
    digestEnv := fun _ _ => ⟨⟨200, some "tok"⟩, ⟨200, some "sha256x"⟩⟩
    scanEnv := fun _ => ⟨"scratch1", true, false, false, "", ""⟩
    now := "t0" }

/-- A concrete sweep environment whose digest resolutions all fail, so the
plan stays empty. -/
def failEnv : SweepEnv :=
  { demoEnv with digestEnv := fun _ _ => ⟨⟨500, none⟩, ⟨200, some "sha256x"⟩⟩ }

/-- C7 exercised concretely: the all-failing registry yields only the
no-op log, and the one-task registry yields the summary first with no
further summary event. -/
theorem C7_witness :
    (scan_images "ns" failEnv []).2 = [Event.noopLog]
    ∧ (∃ tl, (scan_images "ns" demoEnv []).2 =
        Event.summary (detectPlan demoEnv []).length :: tl
        ∧ tl.all (fun e => !e.isSummary) = true) :=
  ⟨(C7_summary_before_scans "ns" failEnv []).1 (by decide),
   (C7_summary_before_scans "ns" demoEnv []).2 (by decide)⟩

/-! ### Schema migration -/

/-- A member of a string list has an index. -/
lemma indexOf?_of_mem {l : List String} {c : String} (h : c ∈ l) :
    ∃ i, l.indexOf? c = some i := by
  rcases h' : l.indexOf? c with _ | i
  · rw [List.indexOf?_eq_none_iff] at h'
    exact absurd (by simp) (h' c h)
  · exact ⟨i, rfl⟩

/-- Point lookup and upsert succeed on any table carrying the five
columns of the current schema. -/
lemma table_ops_ok {t' : Table} (h1 : "image_name" ∈ t'.columns)
    (h2 : "tag" ∈ t'.columns) (h3 : "digest" ∈ t'.columns)
    (h4 : "last_updated_image_timestamp" ∈ t'.columns)
    (h5 : "vulnerabilities_count" ∈ t'.columns) :
    (∀ name tg, (table_get_digest t' name tg).isOk = true) ∧
    (∀ name tg d ts c, (table_upsert t' name tg d ts c).isOk = true) := by
  obtain ⟨i, hi⟩ := indexOf?_of_mem h1
  obtain ⟨j, hj⟩ := indexOf?_of_mem h2
  obtain ⟨k, hk⟩ := indexOf?_of_mem h3
  constructor
  · intro name tg
    simp [table_get_digest, hi, hj, hk, Except.isOk, Except.toBool]
  · intro name tg d ts c
    simp [table_upsert, h1, h2, h3, h4, h5, hi, hj, Except.isOk,
      Except.toBool]

/-- C9: opening the store against data written by an older schema lacking
the digest or vulnerabilities_count columns does not fail: initialization
returns successfully, the migrated table carries both columns (appending
each missing one with NULL in every pre-existing row), and point lookup
and upsert both work on the migrated table. -/
theorem C9_schema_migration :
    ∀ (t : Table),
      "image_name" ∈ t.columns → "tag" ∈ t.columns →
      "last_updated_image_timestamp" ∈ t.columns →
      ∃ t', init_db (some t) = Except.ok t'
        ∧ "digest" ∈ t'.columns ∧ "vulnerabilities_count" ∈ t'.columns
        ∧ ("digest" ∉ t.columns → "vulnerabilities_count" ∉ t.columns →
            t'.columns = t.columns ++ ["digest", "vulnerabilities_count"]
            ∧ t'.rows = t.rows.map (fun r => r ++ [none, none]))
        ∧ (∀ name tg, (table_get_digest t' name tg).isOk = true)
        ∧ (∀ name tg d ts c, (table_upsert t' name tg d ts c).isOk = true) := by
  intro t h1 h2 h4
  by_cases hdg : "digest" ∈ t.columns
  · by_cases hvc : "vulnerabilities_count" ∈ t.columns
    · refine ⟨t, ?_, hdg, hvc, fun h _ => absurd hdg h, ?_, ?_⟩
      · simp [init_db, hdg, hvc]
      · exact (table_ops_ok h1 h2 hdg h4 hvc).1
      · exact (table_ops_ok h1 h2 hdg h4 hvc).2
    · refine ⟨⟨t.columns ++ ["vulnerabilities_count"],
        t.rows.map (fun r => r ++ [none])⟩, ?_, ?_, ?_,
        fun h _ => absurd hdg h, ?_, ?_⟩
      · simp [init_db, hdg, hvc, addColumn]
      · exact List.mem_append_left _ hdg
      · exact List.mem_append_right _ (by simp)
      · exact (table_ops_ok (List.mem_append_left _ h1)
          (List.mem_append_left _ h2) (List.mem_append_left _ hdg)
          (List.mem_append_left _ h4) (List.mem_append_right _ (by simp))).1
      · exact (table_ops_ok (List.mem_append_left _ h1)
          (List.mem_append_left _ h2) (List.mem_append_left _ hdg)
          (List.mem_append_left _ h4) (List.mem_append_right _ (by simp))).2
  · by_cases hvc : "vulnerabilities_count" ∈ t.columns
    · refine ⟨⟨t.columns ++ ["digest"], t.rows.map (fun r => r ++ [none])⟩,
        ?_, ?_, ?_, fun _ h => absurd hvc h, ?_, ?_⟩
      · have : "vulnerabilities_count" ∈ t.columns ++ ["digest"] :=
          List.mem_append_left _ hvc
        simp [init_db, hdg, hvc, addColumn, this]
      · exact List.mem_append_right _ (by simp)
      · exact List.mem_append_left _ hvc
      · exact (table_ops_ok (List.mem_append_left _ h1)
          (List.mem_append_left _ h2) (List.mem_append_right _ (by simp))
          (List.mem_append_left _ h4) (List.mem_append_left _ hvc)).1
      · exact (table_ops_ok (List.mem_append_left _ h1)
          (List.mem_append_left _ h2) (List.mem_append_right _ (by simp))
          (List.mem_append_left _ h4) (List.mem_append_left _ hvc)).2
    · have hvc' : "vulnerabilities_count" ∉ t.columns ++ ["digest"] := by
        intro h
        rcases List.mem_append.1 h with h | h
        · exact hvc h
        · simp at h
      refine ⟨⟨(t.columns ++ ["digest"]) ++ ["vulnerabilities_count"],
        (t.rows.map (fun r => r ++ [none])).map (fun r => r ++ [none])⟩,
        ?_, ?_, ?_, ?_, ?_, ?_⟩
      · simp only [init_db, addColumn, hdg, hvc', if_neg, if_false]
      · exact List.mem_append_left _ (List.mem_append_right _ (by simp))
      · exact List.mem_append_right _ (by simp)
      · intro _ _
        constructor
        · simp
        · simp [Function.comp]
      · exact (table_ops_ok
          (List.mem_append_left _ (List.mem_append_left _ h1))
          (List.mem_append_left _ (List.mem_append_left _ h2))
          (List.mem_append_left _ (List.mem_append_right _ (by simp)))
          (List.mem_append_left _ (List.mem_append_left _ h4))
          (List.mem_append_right _ (by simp))).1
      · exact (table_ops_ok
          (List.mem_append_left _ (List.mem_append_left _ h1))
          (List.mem_append_left _ (List.mem_append_left _ h2))
          (List.mem_append_left _ (List.mem_append_right _ (by simp)))
          (List.mem_append_left _ (List.mem_append_left _ h4))
          (List.mem_append_right _ (by simp))).2

/-- C9 exercised concretely: a table written by the original
three-column schema, holding one row, migrates successfully and supports
lookup and upsert afterwards. -/
theorem C9_schema_migration_witness :
    ∃ t', init_db (some ⟨["image_name", "tag",
        "last_updated_image_timestamp"],
        [[some "app", some "v1", some "2024-01-01"]]⟩) = Except.ok t'
      ∧ "digest" ∈ t'.columns ∧ "vulnerabilities_count" ∈ t'.columns
      ∧ ("digest" ∉ (["image_name", "tag",
            "last_updated_image_timestamp"] : List String) →
          "vulnerabilities_count" ∉ (["image_name", "tag",
            "last_updated_image_timestamp"] : List String) →
          t'.columns = ["image_name", "tag",
            "last_updated_image_timestamp"] ++
              ["digest", "vulnerabilities_count"]
          ∧ t'.rows = [[some "app", some "v1", some "2024-01-01"]].map
              (fun r => r ++ [none, none]))
      ∧ (∀ name tg, (table_get_digest t' name tg).isOk = true)
      ∧ (∀ name tg d ts c, (table_upsert t' name tg d ts c).isOk = true) :=
  C9_schema_migration
    ⟨["image_name", "tag", "last_updated_image_timestamp"],
      [[some "app", some "v1", some "2024-01-01"]]⟩
    (by decide) (by decide) (by decide)

/-! ### Persistence of the scanning phase -/

/-- Whether a task addresses the `(image_name, tag)` key. -/
def sameKey (R T : String) (task : ScanTask) : Bool :=
  task.image_name == R && task.tag == T

/-- The last task of the plan, in execution order, addressing a key. -/
def last_write (plan : List ScanTask) (R T : String) : Option ScanTask :=
  plan.reverse.find? (sameKey R T)

/-- The record `exec_task` upserts for a task. -/
def record_for (ns : String) (env : SweepEnv) (task : ScanTask) :
    ImageRecord :=
  ⟨task.image_name, task.tag, some task.resolved_digest, some env.now,
   some ((run_trufflehog
     (env.scanEnv (image_tag_of ns task.image_name task.tag))
     (image_tag_of ns task.image_name task.tag)).vulnerabilities_count)⟩

/-- Replacing the row of one key leaves lookups of every other key
untouched. -/
lemma find?_key_filter (n t R T : String) (h : ¬(n = R ∧ t = T)) :
    ∀ db : Images,
      (db.filter (fun r => !(r.image_name == n && r.tag == t))).find?
          (fun r => r.image_name == R && r.tag == T) =
        db.find? (fun r => r.image_name == R && r.tag == T) := by
  intro db
  induction db with
  | nil => rfl
  | cons r rest ih =>
    by_cases hq : (r.image_name == n && r.tag == t) = true
    · have hru : r.image_name = n ∧ r.tag = t := by
        simpa [Bool.and_eq_true, beq_iff_eq] using hq
      have hp : ¬(r.image_name == R && r.tag == T) = true := by
        intro hc
        have hru' : r.image_name = R ∧ r.tag = T := by
          simpa [Bool.and_eq_true, beq_iff_eq] using hc
        exact h ⟨hru.1 ▸ hru'.1, hru.2 ▸ hru'.2⟩
      have hnq : ¬(!(r.image_name == n && r.tag == t)) = true := by
        rw [hq]
        intro hc
        exact absurd hc (by decide)
      rw [@List.filter_cons_of_neg ImageRecord
        (fun r => !(r.image_name == n && r.tag == t)) r rest hnq,
        @List.find?_cons_of_neg ImageRecord
        (fun r => r.image_name == R && r.tag == T) r rest hp]
      exact ih
    · have hqf : (r.image_name == n && r.tag == t) = false := by
        rcases hx : (r.image_name == n && r.tag == t) with _ | _
        · rfl
        · exact absurd hx hq
      have hq' : (!(r.image_name == n && r.tag == t)) = true := by
        rw [hqf]
        rfl
      rw [@List.filter_cons_of_pos ImageRecord
        (fun r => !(r.image_name == n && r.tag == t)) r rest hq']
      by_cases hp : (r.image_name == R && r.tag == T) = true
      · rw [@List.find?_cons_of_pos ImageRecord
          (fun r => r.image_name == R && r.tag == T) r
          (rest.filter (fun r => !(r.image_name == n && r.tag == t))) hp,
          @List.find?_cons_of_pos ImageRecord
          (fun r => r.image_name == R && r.tag == T) r rest hp]
      · rw [@List.find?_cons_of_neg ImageRecord
          (fun r => r.image_name == R && r.tag == T) r
          (rest.filter (fun r => !(r.image_name == n && r.tag == t))) hp,
          @List.find?_cons_of_neg ImageRecord
          (fun r => r.image_name == R && r.tag == T) r rest hp]
        exact ih

/-- Lookup after an upsert: the written key returns the fresh record,
every other key is unchanged. -/
lemma db_get_update_db (db : Images) (n t d : String) (c : Nat)
    (now R T : String) :
    db_get (update_db db n t d c now) R T =
      if n = R ∧ t = T then some ⟨n, t, some d, some now, some c⟩
      else db_get db R T := by
  unfold db_get update_db
  by_cases h : n = R ∧ t = T
  · have hhead : (((⟨n, t, some d, some now, some c⟩ : ImageRecord)).image_name
        == R && ((⟨n, t, some d, some now, some c⟩ :
          ImageRecord)).tag == T) = true := by
      simp [beq_iff_eq, h.1, h.2]
    rw [@List.find?_cons_of_pos ImageRecord
      (fun r => r.image_name == R && r.tag == T)
      ⟨n, t, some d, some now, some c⟩
      (db.filter (fun r => !(r.image_name == n && r.tag == t))) hhead,
      if_pos h]
  · have hhead : ¬(((⟨n, t, some d, some now, some c⟩ :
        ImageRecord)).image_name == R && ((⟨n, t, some d, some now, some c⟩ :
          ImageRecord)).tag == T) = true := by
      intro hc
      have hru : n = R ∧ t = T := by
        simpa [Bool.and_eq_true, beq_iff_eq] using hc
      exact h hru
    rw [@List.find?_cons_of_neg ImageRecord
      (fun r => r.image_name == R && r.tag == T)
      ⟨n, t, some d, some now, some c⟩
      (db.filter (fun r => !(r.image_name == n && r.tag == t))) hhead,
      if_neg h]
    exact find?_key_filter n t R T h db

/-- Lookup after the whole scanning loop: a key written by the plan holds
the record of its last write; a key the plan never writes is unchanged. -/
lemma db_get_scanning_fold (ns : String) (env : SweepEnv) :
    ∀ (plan : List ScanTask) (st : Images × List Event) (R T : String),
      db_get ((plan.foldl (exec_task ns env) st).1) R T =
        match last_write plan R T with
        | some task => some (record_for ns env task)
        | none => db_get st.1 R T := by
  intro plan
  induction plan using List.reverseRecOn with
  | nil => intro st R T; rfl
  | append_singleton l a ih =>
    intro st R T
    have hlw : last_write (l ++ [a]) R T =
        match sameKey R T a with
        | true => some a
        | false => last_write l R T := by
      by_cases hk : sameKey R T a = true
      · simp [last_write, List.reverse_append, List.find?_cons, hk]
      · simp [last_write, List.reverse_append, List.find?_cons, hk]
    rw [hlw, List.foldl_append]
    simp only [List.foldl_cons, List.foldl_nil]
    show db_get (update_db (List.foldl (exec_task ns env) st l).1
        a.image_name a.tag a.resolved_digest
        ((run_trufflehog (env.scanEnv (image_tag_of ns a.image_name a.tag))
          (image_tag_of ns a.image_name a.tag)).vulnerabilities_count)
        env.now) R T = _
    rw [db_get_update_db]
    by_cases hk : sameKey R T a = true
    · have hkey : a.image_name = R ∧ a.tag = T := by
        simpa [sameKey, Bool.and_eq_true, beq_iff_eq] using hk
      rw [if_pos hkey, hk]
      rfl
    · have hkey : ¬(a.image_name = R ∧ a.tag = T) := by
        intro hc
        exact hk (by simp [sameKey, beq_iff_eq, hc.1, hc.2])
      rw [if_neg hkey]
      rw [Bool.not_eq_true] at hk
      rw [hk]
      exact ih st R T

/-- A last write is a plan member addressing the key. -/
lemma last_write_mem {plan : List ScanTask} {R T : String} {task : ScanTask}
    (h : last_write plan R T = some task) :
    task ∈ plan ∧ sameKey R T task = true :=
  ⟨List.mem_reverse.1 (List.mem_of_find?_eq_some h), List.find?_some h⟩

/-- When no write addresses the key, no plan member addresses it. -/
lemma last_write_eq_none {plan : List ScanTask} {R T : String}
    (h : last_write plan R T = none) :
    ∀ task ∈ plan, sameKey R T task = false := by
  intro task hmem
  have := List.find?_eq_none.1 h task (List.mem_reverse.2 hmem)
  simpa using this

/-- C4: the sweep is idempotent.  After one sweep persisted each scanned
pair's resolved digest, a second sweep against the same registry state
(the environment, hence every resolved digest, unchanged) accumulates an
empty plan — zero tasks — and therefore ends with the no-op log. -/
theorem C4_sweep_idempotent :
    ∀ (ns : String) (env : SweepEnv) (db : Images),
      detectPlan env ((scan_images ns env db).1) = []
      ∧ (scan_images ns env ((scan_images ns env db).1)).2 =
          [Event.noopLog] := by
  intro ns env db
  have hmain : detectPlan env ((scan_images ns env db).1) = [] := by
    rcases hp : detectPlan env db with _ | ⟨t0, ts0⟩
    · have hdb : (scan_images ns env db).1 = db := by simp [scan_images, hp]
      rw [hdb, hp]
    · have hfst : (scan_images ns env db).1 =
          (scanning_phase ns env db (t0 :: ts0)).1 := by
        simp [scan_images, hp]
      rw [hfst]
      unfold detectPlan
      apply List.flatMap_eq_nil_iff.2
      intro repo hrepo
      unfold tagsPlan
      apply List.filterMap_eq_nil_iff.2
      intro tg htg
      rcases hres : resolve_digest env repo tg with _ | d
      · simp [detect_tag, hres]
      · have hget := db_get_scanning_fold ns env (t0 :: ts0) (db, []) repo tg
        rcases hlw : last_write (t0 :: ts0) repo tg with _ | task
        · rw [hlw] at hget
          have hnone : detect_tag env db repo tg = none := by
            rcases hdt : detect_tag env db repo tg with _ | task'
            · rfl
            · exfalso
              obtain ⟨he1, he2, _, _⟩ := detect_tag_some hdt
              have hin : task' ∈ detectPlan env db :=
                detectPlan_mem_intro hrepo htg hdt
              rw [hp] at hin
              have hfalse := last_write_eq_none hlw task' hin
              rw [sameKey] at hfalse
              simp [beq_iff_eq, he1, he2] at hfalse
          have hskip : decide (db_get db repo tg) d = Decision.Skip := by
            unfold detect_tag at hnone
            rw [hres] at hnone
            rcases hdec : decide (db_get db repo tg) d with _ | _
            · simp only [hdec] at hnone
              exact absurd hnone (by simp)
            · rfl
          have hdb1 : db_get ((scanning_phase ns env db (t0 :: ts0)).1)
              repo tg = db_get db repo tg := hget
          simp [detect_tag, hres, hdb1, hskip]
        · simp only [hlw] at hget
          obtain ⟨ht'mem, ht'key⟩ := last_write_mem hlw
          have hkeys : task.image_name = repo ∧ task.tag = tg := by
            simpa [sameKey, Bool.and_eq_true, beq_iff_eq] using ht'key
          rw [← hp] at ht'mem
          obtain ⟨_, _, hres', _⟩ := mem_detectPlan ht'mem
          rw [hkeys.1, hkeys.2, hres] at hres'
          have hdig : task.resolved_digest = d :=
            (Option.some_inj.1 hres').symm
          have hdb1 : db_get ((scanning_phase ns env db (t0 :: ts0)).1)
              repo tg = some (record_for ns env task) := hget
          have hskip : decide (some (record_for ns env task)) d =
              Decision.Skip := by
            simp [decide, record_for, hdig]
          simp [detect_tag, hres, hdb1, hskip]
  have haux : ∀ db' : Images, detectPlan env db' = [] →
      (scan_images ns env db').2 = [Event.noopLog] := by
    intro db' h'
    simp [scan_images, h']
  exact ⟨hmain, haux _ hmain⟩

/-- C10: every executed task's upsert stores the digest resolved during
detection together with the count the scan returned — `0` whenever the
scan failed on the raising pull/create path — so the change decision for
that pair against the same resolved digest is `Skip` afterwards: a failed
scan is not retried until the registry digest changes. -/
theorem C10_failed_scan_not_retried :
    ∀ (ns : String) (env : SweepEnv) (db : Images) (task : ScanTask),
      task ∈ detectPlan env db →
      ∃ rec, db_get ((scan_images ns env db).1) task.image_name task.tag =
          some rec
        ∧ rec.digest = some task.resolved_digest
        ∧ rec.vulnerabilities_count = some ((run_trufflehog
            (env.scanEnv (image_tag_of ns task.image_name task.tag))
            (image_tag_of ns task.image_name task.tag)).vulnerabilities_count)
        ∧ decide (some rec) task.resolved_digest = Decision.Skip
        ∧ (((env.scanEnv
              (image_tag_of ns task.image_name task.tag)).pullFails = true ∨
            (env.scanEnv
              (image_tag_of ns task.image_name task.tag)).createFails = true) →
            rec.vulnerabilities_count = some 0) := by
  intro ns env db task hmem
  rcases hp : detectPlan env db with _ | ⟨t0, ts0⟩
  · rw [hp] at hmem
    exact absurd hmem (by simp)
  · have hfst : (scan_images ns env db).1 =
        (scanning_phase ns env db (t0 :: ts0)).1 := by
      simp [scan_images, hp]
    rw [hfst]
    have hget := db_get_scanning_fold ns env (t0 :: ts0) (db, [])
      task.image_name task.tag
    rw [hp] at hmem
    rcases hlw : last_write (t0 :: ts0) task.image_name task.tag with _ | t'
    · exfalso
      have hfalse := last_write_eq_none hlw task hmem
      simp [sameKey] at hfalse
    · simp only [hlw] at hget
      obtain ⟨ht'mem, ht'key⟩ := last_write_mem hlw
      have hkeys : t'.image_name = task.image_name ∧ t'.tag = task.tag := by
        simpa [sameKey, Bool.and_eq_true, beq_iff_eq] using ht'key
      rw [← hp] at ht'mem
      obtain ⟨_, _, hres', _⟩ := mem_detectPlan ht'mem
      have hmem' : task ∈ detectPlan env db := by rw [hp]; exact hmem
      obtain ⟨_, _, hres, _⟩ := mem_detectPlan hmem'
      rw [hkeys.1, hkeys.2] at hres'
      rw [hres'] at hres
      have hdig : t'.resolved_digest = task.resolved_digest :=
        Option.some_inj.1 hres
      refine ⟨record_for ns env t', hget, ?_, ?_, ?_, ?_⟩
      · simp [record_for, hdig]
      · simp [record_for, hkeys.1, hkeys.2]
      · simp [decide, record_for, hdig]
      · intro hfail
        have hzero := run_trufflehog_failed_count
          (env.scanEnv (image_tag_of ns task.image_name task.tag))
          (image_tag_of ns task.image_name task.tag) hfail
        simp [record_for, hkeys.1, hkeys.2, hzero]

/-- C10 exercised concretely: in the one-task environment whose docker
pull fails, the persisted record carries the resolved digest with count 0
and the next decision for the unchanged digest is `Skip`. -/
theorem C10_witness :
    ∃ rec, db_get ((scan_images "ns" demoEnv []).1) "app" "v1" = some rec
      ∧ rec.digest = some "sha256x"
      ∧ rec.vulnerabilities_count = some ((run_trufflehog
          (demoEnv.scanEnv (image_tag_of "ns" "app" "v1"))
          (image_tag_of "ns" "app" "v1")).vulnerabilities_count)
      ∧ decide (some rec) "sha256x" = Decision.Skip
      ∧ (((demoEnv.scanEnv (image_tag_of "ns" "app" "v1")).pullFails = true ∨
          (demoEnv.scanEnv (image_tag_of "ns" "app" "v1")).createFails = true) →
          rec.vulnerabilities_count = some 0) :=
  C10_failed_scan_not_retried "ns" demoEnv [] ⟨"app", "v1", "sha256x"⟩
    (by decide)

end Scanner
